import Mathlib

/-!
Verification of `detection/pytorch_detector.py` (MegaDetector PyTorch inference
pipeline) against its natural-language specification.

The embedding is over ℚ (machine floats are modelled as exact rationals; every
arithmetic step of the pipeline is rational, and the properties at stake are
robust interval/digit-count properties, not float-specific).

External collaborators (the YOLOv5 model forward pass, `letterbox`,
`non_max_suppression`, `scale_coords`) and repository modules not present under
`src/` (`ct_utils`, `detection.run_detector`) are modelled from the
specification; each such definition notes this in its doc comment.  The outcome
of the stages up to and including `scale_coords` is abstracted as an input
`pre : Except String (List RawDet)`: either an exception in one of those stages
or the list of rescaled detection rows handed to the per-detection loop.

The `except Exception` handler (lines 187-191) calls `traceback.print_exc(e)`;
`traceback.print_exc` takes an integer `limit` as its first parameter, so in
CPython passing the exception object deterministically raises
`TypeError: '>=' not supported between instances of ... and 'int'` inside the
handler.  There is no outer catch, so every caught exception ends with that
`TypeError` propagating to the caller; lines 193-196 run (and a record is
returned) only when no stage raised.  A call's outcome is therefore modelled
as `GenOutcome`: either `ret` (a returned record plus the instance state) or
`raised` (an exception propagated to the caller plus the instance state).
-/

namespace PTDetector

/-- Modelled from the spec: the failure marker string `FAILURE_INFER` imported
from `detection.run_detector` (not under `src/`); the result record's
`failure` field is set to this marker when the per-image boundary catches an
exception.  Its exact text is irrelevant to every claim. -/
def FAILURE_INFER : String := "Failure inference"

/-- Modelled from the spec: `ct_utils.truncate_float` (not under `src/`).
Truncates `x` to at most `precision` significant decimal digits by flooring at
the digit boundary: `math.floor(x * factor) / factor` with
`factor = 10 ** (precision - 1 - floor(log10 |x|))`; `0` is returned unchanged.
Truncation rounds toward the floor of the digit boundary, never to nearest. -/
def truncate_float (x : ℚ) (precision : ℕ) : ℚ :=
  if x = 0 then 0
  else
    (⌊x * (10 : ℚ) ^ ((precision : ℤ) - 1 - Int.log 10 |x|)⌋ : ℚ) /
      (10 : ℚ) ^ ((precision : ℤ) - 1 - Int.log 10 |x|)

/-- Modelled from the spec: `ct_utils.truncate_float_array` (not under `src/`),
which applies `truncate_float` to each element. -/
def truncate_float_array (xs : List ℚ) (precision : ℕ) : List ℚ :=
  xs.map (fun x => truncate_float x precision)

/-- Modelled from the spec: `ct_utils.convert_yolo_to_xywh` (not under `src/`).
Converts a normalized `[center_x, center_y, width, height]` box into the API's
`[x_min, y_min, width, height]` form. -/
def convert_yolo_to_xywh : List ℚ → List ℚ
  | [xc, yc, w, h] => [xc - w / 2, yc - h / 2, w, h]
  | l => l

/-- Modelled from the spec: the external YOLOv5 helper `xyxy2xywh`, which turns
a corner box `(x1, y1, x2, y2)` into `[center_x, center_y, width, height]`. -/
def xyxy2xywh (x1 y1 x2 y2 : ℚ) : List ℚ :=
  [(x1 + x2) / 2, (y1 + y2) / 2, x2 - x1, y2 - y1]

/-- Elementwise division by the normalization gain
`gn = torch.tensor(img_original.shape)[[1, 0, 1, 0]] = [W, H, W, H]`
(`pytorch_detector.py` line 143 and the `/ gn` on line 157). -/
def divGn (l : List ℚ) (W H : ℚ) : List ℚ :=
  match l with
  | [a, b, c, d] => [a / W, b / H, c / W, d / H]
  | l => l

/-- One row of the tensor handed to the per-detection loop: a rescaled box in
original-image pixel coordinates `(x1, y1, x2, y2)`, a confidence, and the
model-native 0-based class index (`for *xyxy, conf, cls in reversed(det)`). -/
structure RawDet where
  x1 : ℚ
  y1 : ℚ
  x2 : ℚ
  y2 : ℚ
  conf : ℚ
  cls : ℤ
deriving DecidableEq, Repr

/-- One entry of the result's `detections` list: keys `category`, `conf`,
`bbox` (`pytorch_detector.py` lines 172-176). -/
structure Detection where
  category : String
  conf : ℚ
  bbox : List ℚ
deriving DecidableEq, Repr

/-- The per-image result record.  `file`, `max_detection_conf` and
`detections` are always present (the Python dict is always given these keys);
`failure` is optional. -/
structure DetectionResult where
  file : String
  max_detection_conf : ℚ
  detections : List Detection
  failure : Option String
deriving DecidableEq, Repr

/-- The value passed as `image_size`: Python lets it be an `int` or any sized
sequence; the code asserts `isinstance(image_size, int) or len(image_size) == 2`. -/
inductive PySize where
  | int (n : ℤ)
  | seq (l : List ℤ)
deriving DecidableEq, Repr

/-- The assertion on line 104: `isinstance(image_size, int) or (len(image_size) == 2)`. -/
def sizeValid : PySize → Bool
  | .int _ => true
  | .seq l => l.length == 2

/-- Class-id policy (lines 163-170): with remapping, the 0-based native index
becomes `cls + 1` and must land in the recognized set `{1, 2, 3}`, otherwise
`KeyError(f'{cls} is not a valid class.')` is raised; with native-class
passthrough the index is used unmodified and unvalidated. -/
def remapClass (use_model_native_classes : Bool) (cls : ℤ) : Except String ℤ :=
  if use_model_native_classes then
    .ok cls
  else
    let c := cls + 1
    if c = 1 ∨ c = 2 ∨ c = 3 then .ok c
    else .error (toString c ++ " is not a valid class.")

/-- Builds one detection record from a rescaled row (lines 154-176): the corner
box goes through `xyxy2xywh`, is divided by the gain `gn`, converted by
`ct_utils.convert_yolo_to_xywh`, and truncated to `cdp` digits; the confidence
is truncated to `cp` digits; `c` is the already-remapped class id. -/
def detRowToDetection (cp cdp : ℕ) (W H : ℚ) (c : ℤ) (r : RawDet) : Detection :=
  { category := toString c
    conf := truncate_float r.conf cp
    bbox := truncate_float_array (convert_yolo_to_xywh (divGn (xyxy2xywh r.x1 r.y1 r.x2 r.y2) W H)) cdp }

/-- The per-detection loop (lines 154-177), processing rows in the given order
(the caller passes `rows.reverse` to mirror `reversed(det)`).  `dets` and `mc`
are the `detections` list and `max_conf` accumulated so far; an invalid class
raises, so the loop stops, returning the partial accumulators and the error. -/
def processDets (native : Bool) (cp cdp : ℕ) (W H : ℚ) :
    List RawDet → List Detection → ℚ → List Detection × ℚ × Option String
  | [], dets, mc => (dets, mc, none)
  | r :: rest, dets, mc =>
    match remapClass native r.cls with
    | .error e => (dets, mc, some e)
    | .ok c =>
      let d := detRowToDetection cp cdp W H c r
      processDets native cp cdp W H rest (dets ++ [d]) (max mc d.conf)

/-- Outcome of the stages from `letterbox` up to `scale_coords`
(lines 96-152), abstracted: either an exception in one of those external
stages, or the rescaled rows; on failure the loop never runs, so `detections`
and `max_conf` keep their initial values `[]` and `0.0`. -/
def runPre (native : Bool) (cp cdp : ℕ) (W H : ℚ)
    (pre : Except String (List RawDet)) : List Detection × ℚ × Option String :=
  match pre with
  | .error e => ([], 0, some e)
  | .ok rows => processDets native cp cdp W H rows.reverse [] 0

/-- The `TypeError` deterministically raised by the handler's
`traceback.print_exc(e)` call (line 191): `print_exc(limit=None, ...)` takes
an integer `limit` as its first parameter, and the stdlib compares that
argument against an int (`limit >= 0` in `StackSummary.extract`), which
raises for an exception object.  The exact message text is immaterial. -/
def TRACEBACK_TYPE_ERROR : String :=
  "TypeError: '>=' not supported between instances of 'Exception' and 'int'"

/-- Observable outcome of one call to `generate_detections_one_image`: either
a returned record (`ret`) or an exception propagated to the caller
(`raised`); both carry the `printed_image_size_warning` flag after the call
(instance state survives the raise) and whether the size-override warning was
printed during the call. -/
inductive GenOutcome where
  | ret (result : DetectionResult) (flag : Bool) (warned : Bool)
  | raised (msg : String) (flag : Bool) (warned : Bool)
deriving DecidableEq, Repr

/-- The `printed_image_size_warning` flag after the call. -/
def GenOutcome.flag : GenOutcome → Bool
  | .ret _ f _ => f
  | .raised _ f _ => f

/-- Whether the size-override warning was printed during the call. -/
def GenOutcome.warned : GenOutcome → Bool
  | .ret _ _ w => w
  | .raised _ _ w => w

/-- Whether the call ended in an exception propagated to the caller. -/
def GenOutcome.isRaised : GenOutcome → Bool
  | .ret _ _ _ => false
  | .raised _ _ _ => true

/-- The tail of the function (lines 185-196) applied to the loop outcome.  On
success (no exception), lines 193-196 attach `max_detection_conf` and
`detections` and the record is returned — the `failure` key was never set.  On
a caught exception the handler assigns the failure marker to the local record
(line 189, never observable: the record is not returned), logs, and then its
`traceback.print_exc(e)` call raises `TypeError`, so the call propagates that
exception to the caller instead of returning. -/
def finishCall (image_id : String) (flag warned : Bool) :
    List Detection × ℚ × Option String → GenOutcome
  | (dets, mc, none) =>
    .ret { file := image_id
           max_detection_conf := mc
           detections := dets
           failure := none } flag warned
  | (_, _, some _) => .raised TRACEBACK_TYPE_ERROR flag warned

/-- `PTDetector.generate_detections_one_image` (lines 69-196).  `native` is
`self.use_model_native_classes`, `flag0` is `self.printed_image_size_warning`
on entry, `cp`/`cdp` are `CONF_DIGITS`/`COORD_DIGITS`, `W`/`H` are the original
image's width and height, and `pre` abstracts the external stages up to
`scale_coords`.  Control flow mirrors the source: the size assertion sits
inside the `try`, so an invalid `image_size` raises `AssertionError` into the
same `except Exception` boundary as any stage failure (flag untouched, no
warning printed), where the handler's `traceback.print_exc(e)` then raises
`TypeError` to the caller; a valid supplied size prints the warning iff the
flag was unset and sets the flag; an omitted size resets the flag; a record is
returned only when no stage raised. -/
def generate_detections_one_image (native flag0 : Bool) (cp cdp : ℕ)
    (image_id : String) (image_size : Option PySize) (W H : ℚ)
    (pre : Except String (List RawDet)) : GenOutcome :=
  match image_size with
  | some sz =>
    if sizeValid sz then
      finishCall image_id true (!flag0) (runPre native cp cdp W H pre)
    else
      .raised TRACEBACK_TYPE_ERROR flag0 false
  | none =>
    finishCall image_id false false (runPre native cp cdp W H pre)

/-- Modelled from the spec: the greedy overlap-suppression core of the external
YOLOv5 `non_max_suppression` (section 4.3b: "among boxes whose overlap exceeds
the cutoff, keep the highest-confidence one").  The input list is assumed
sorted by descending confidence (the external implementation sorts it); `ov`
abstracts the class-aware "overlap exceeds the cutoff" test. -/
def nmsGreedy (ov : RawDet → RawDet → Bool) : List RawDet → List RawDet
  | [] => []
  | c :: rest => c :: nmsGreedy ov (rest.filter (fun d => !(ov c d)))
termination_by l => l.length
decreasing_by
  simp only [List.length_cons]
  exact Nat.lt_succ_of_le (List.length_filter_le _ _)

/-- Modelled from the spec: the external YOLOv5 `non_max_suppression` invoked
on lines 134-140 with `conf_thres = detection_threshold` (section 4.3a-b):
candidates below the threshold are discarded, then overlap suppression keeps
the highest-confidence box of each overlap cluster.  Candidates are assumed
sorted by descending confidence. -/
def non_max_suppression (ov : RawDet → RawDet → Bool) (conf_thres : ℚ)
    (cands : List RawDet) : List RawDet :=
  nmsGreedy ov (cands.filter (fun c => conf_thres ≤ c.conf))

/-- The pipeline from raw (already rescaled) candidates through NMS to the
returned record: `generate_detections_one_image` with
`pre = ok (non_max_suppression ...)`.  Used to state how the result depends on
`detection_threshold`. -/
def run_pipeline (ov : RawDet → RawDet → Bool) (native flag0 : Bool)
    (cp cdp : ℕ) (image_id : String) (image_size : Option PySize) (W H : ℚ)
    (detection_threshold : ℚ) (cands : List RawDet) : GenOutcome :=
  generate_detections_one_image native flag0 cp cdp image_id image_size W H
    (.ok (non_max_suppression ov detection_threshold cands))

/-- Modelled from the spec (section 4.1): the letterbox scale factor and
padding offsets recorded by preprocessing.  The image is scaled by
`r = min(target_h / H, target_w / W)` (aspect-preserving, the longest relevant
dimension reaching its target) and padded so the final dimensions are
multiples of `stride`, the padding split evenly between the two borders.
Returns `(r, pad_x, pad_y)`. -/
def letterboxParams (H W Th Tw stride : ℚ) : ℚ × ℚ × ℚ :=
  let r := min (Th / H) (Tw / W)
  let padW := (stride * ⌈r * W / stride⌉ - r * W) / 2
  let padH := (stride * ⌈r * H / stride⌉ - r * H) / 2
  (r, padW, padH)

/-- Modelled from the spec (section 4.1): the forward coordinate transform of
letterboxing, mapping a point of the original pixel grid into the
padded/resized frame: scale by `r`, then shift by the padding offsets. -/
def letterboxPoint (r dx dy : ℚ) (p : ℚ × ℚ) : ℚ × ℚ :=
  (r * p.1 + dx, r * p.2 + dy)

/-- Modelled from the spec (section 4.3c): the inverse transform applied by
post-processing (`scale_coords` on line 152 plus the `.round()`): subtract the
recorded padding, divide by the recorded scale, and round to integer pixel
boundaries. -/
def scale_coords_point (r dx dy : ℚ) (q : ℚ × ℚ) : ℚ × ℚ :=
  ((round ((q.1 - dx) / r) : ℤ), (round ((q.2 - dy) / r) : ℤ))

/-- The detections produced by the per-detection loop before its first class
failure (the whole list when every class is accepted). -/
def loopDetections (native : Bool) (cp cdp : ℕ) (W H : ℚ) : List RawDet → List Detection
  | [] => []
  | r :: rest =>
    match remapClass native r.cls with
    | .error _ => []
    | .ok c => detRowToDetection cp cdp W H c r :: loopDetections native cp cdp W H rest

/-- The exception, if any, raised by the per-detection loop (the first invalid
class in processing order). -/
def loopError (native : Bool) : List RawDet → Option String
  | [] => none
  | r :: rest =>
    match remapClass native r.cls with
    | .error e => some e
    | .ok _ => loopError native rest

/-- The rows a `pre` outcome hands to the loop (`[]` when it failed). -/
def preRows : Except String (List RawDet) → List RawDet
  | .error _ => []
  | .ok rows => rows

/-- Whether some stage of the call raises an exception: the `image_size`
assertion, one of the abstracted external stages, or the class remap inside
the loop. -/
def anyStageRaises (native : Bool) (image_size : Option PySize)
    (pre : Except String (List RawDet)) : Bool :=
  let preRaises :=
    match pre with
    | .error _ => true
    | .ok rows => (loopError native rows.reverse).isSome
  match image_size with
  | some sz => if sizeValid sz then preRaises else true
  | none => preRaises

/-- `q` is representable with at most `p` significant decimal digits: it is
`n * 10 ^ e` for an integer mantissa `n` with `|n| < 10 ^ p`. -/
def hasSigDigits (p : ℕ) (q : ℚ) : Prop :=
  ∃ n e : ℤ, q = (n : ℚ) * (10 : ℚ) ^ e ∧ n.natAbs < 10 ^ p

theorem processDets_eq (native : Bool) (cp cdp : ℕ) (W H : ℚ) :
    ∀ (rows : List RawDet) (dets : List Detection) (mc : ℚ),
    processDets native cp cdp W H rows dets mc =
      (dets ++ loopDetections native cp cdp W H rows,
       ((loopDetections native cp cdp W H rows).map Detection.conf).foldl max mc,
       loopError native rows)
  | [], dets, mc => by simp [processDets, loopDetections, loopError]
  | r :: rest, dets, mc => by
    simp only [processDets, loopDetections, loopError]
    cases hc : remapClass native r.cls with
    | error e => simp
    | ok c =>
      simp only [processDets_eq native cp cdp W H rest, List.map_cons, List.foldl_cons,
        List.append_assoc, List.singleton_append]

theorem runPre_ok (native : Bool) (cp cdp : ℕ) (W H : ℚ) (rows : List RawDet) :
    runPre native cp cdp W H (.ok rows) =
      (loopDetections native cp cdp W H rows.reverse,
       ((loopDetections native cp cdp W H rows.reverse).map Detection.conf).foldl max 0,
       loopError native rows.reverse) := by
  simp [runPre, processDets_eq]

/-- Whether the `image_size` argument passes the assertion (vacuously true
when it is omitted). -/
def sizeOk : Option PySize → Bool
  | none => true
  | some sz => sizeValid sz

theorem finishCall_flag (image_id : String) (fl wa : Bool)
    (x : List Detection × ℚ × Option String) : (finishCall image_id fl wa x).flag = fl := by
  rcases x with ⟨dets, mc, err⟩
  cases err <;> rfl

theorem finishCall_warned (image_id : String) (fl wa : Bool)
    (x : List Detection × ℚ × Option String) : (finishCall image_id fl wa x).warned = wa := by
  rcases x with ⟨dets, mc, err⟩
  cases err <;> rfl

theorem finishCall_isRaised (image_id : String) (fl wa : Bool)
    (x : List Detection × ℚ × Option String) : (finishCall image_id fl wa x).isRaised = x.2.2.isSome := by
  rcases x with ⟨dets, mc, err⟩
  cases err <;> rfl

theorem generate_ok_ret (native flag0 : Bool) (cp cdp : ℕ) (image_id : String)
    (image_size : Option PySize) (W H : ℚ) (rows : List RawDet)
    (hs : sizeOk image_size = true) (hnone : loopError native rows.reverse = none) :
    ∃ fl wa,
      generate_detections_one_image native flag0 cp cdp image_id image_size W H (.ok rows)
        = .ret { file := image_id
                 max_detection_conf := ((loopDetections native cp cdp W H rows.reverse).map
                   Detection.conf).foldl max 0
                 detections := loopDetections native cp cdp W H rows.reverse
                 failure := none } fl wa := by
  cases image_size with
  | none =>
    refine ⟨false, false, ?_⟩
    simp [generate_detections_one_image, runPre, processDets_eq, finishCall, hnone]
  | some sz =>
    simp only [sizeOk] at hs
    refine ⟨true, !flag0, ?_⟩
    simp [generate_detections_one_image, hs, runPre, processDets_eq, finishCall, hnone]

theorem generate_ok_ret_inv (native flag0 : Bool) (cp cdp : ℕ) (image_id : String)
    (image_size : Option PySize) (W H : ℚ) (rows : List RawDet)
    (res : DetectionResult) (fl wa : Bool)
    (h : generate_detections_one_image native flag0 cp cdp image_id image_size W H (.ok rows)
        = .ret res fl wa) :
    loopError native rows.reverse = none ∧
    res = { file := image_id
            max_detection_conf := ((loopDetections native cp cdp W H rows.reverse).map
              Detection.conf).foldl max 0
            detections := loopDetections native cp cdp W H rows.reverse
            failure := none } := by
  cases hE : loopError native rows.reverse with
  | some e =>
    exfalso
    cases image_size with
    | none =>
      simp [generate_detections_one_image, runPre, processDets_eq, finishCall, hE] at h
    | some sz =>
      by_cases hv : sizeValid sz
      · simp [generate_detections_one_image, hv, runPre, processDets_eq, finishCall, hE] at h
      · simp [generate_detections_one_image, hv] at h
  | none =>
    refine ⟨rfl, ?_⟩
    cases image_size with
    | none =>
      simp only [generate_detections_one_image, runPre, processDets_eq, hE, finishCall,
        GenOutcome.ret.injEq] at h
      exact h.1.symm
    | some sz =>
      by_cases hv : sizeValid sz
      · simp only [generate_detections_one_image, hv, if_true, runPre, processDets_eq, hE,
          finishCall, GenOutcome.ret.injEq] at h
        exact h.1.symm
      · simp [generate_detections_one_image, hv] at h

theorem generate_ret_inv (native flag0 : Bool) (cp cdp : ℕ) (image_id : String)
    (image_size : Option PySize) (W H : ℚ) (pre : Except String (List RawDet))
    (res : DetectionResult) (fl wa : Bool)
    (h : generate_detections_one_image native flag0 cp cdp image_id image_size W H pre
        = .ret res fl wa) :
    ∃ rows, pre = .ok rows ∧ loopError native rows.reverse = none ∧
      res = { file := image_id
              max_detection_conf := ((loopDetections native cp cdp W H rows.reverse).map
                Detection.conf).foldl max 0
              detections := loopDetections native cp cdp W H rows.reverse
              failure := none } := by
  cases pre with
  | error e =>
    exfalso
    cases image_size with
    | none => simp [generate_detections_one_image, runPre, finishCall] at h
    | some sz =>
      by_cases hv : sizeValid sz
      · simp [generate_detections_one_image, hv, runPre, finishCall] at h
      · simp [generate_detections_one_image, hv] at h
  | ok rows =>
    exact ⟨rows, rfl,
      generate_ok_ret_inv native flag0 cp cdp image_id image_size W H rows res fl wa h⟩

theorem generate_isRaised_eq (native flag0 : Bool) (cp cdp : ℕ) (image_id : String)
    (image_size : Option PySize) (W H : ℚ) (pre : Except String (List RawDet)) :
    (generate_detections_one_image native flag0 cp cdp image_id image_size W H pre).isRaised
      = anyStageRaises native image_size pre := by
  cases image_size with
  | none =>
    cases pre with
    | error e =>
      simp [generate_detections_one_image, runPre, finishCall, anyStageRaises, GenOutcome.isRaised]
    | ok rows =>
      simp only [generate_detections_one_image, runPre, processDets_eq, anyStageRaises]
      cases hE : loopError native rows.reverse <;>
        simp [finishCall, GenOutcome.isRaised, hE]
  | some sz =>
    by_cases hv : sizeValid sz
    · cases pre with
      | error e =>
        simp [generate_detections_one_image, hv, runPre, finishCall, anyStageRaises,
          GenOutcome.isRaised]
      | ok rows =>
        simp only [generate_detections_one_image, hv, if_true, runPre, processDets_eq,
          anyStageRaises]
        cases hE : loopError native rows.reverse <;>
          simp [finishCall, GenOutcome.isRaised, hE]
    · simp [generate_detections_one_image, hv, anyStageRaises, GenOutcome.isRaised]

theorem generate_raised_msg (native flag0 : Bool) (cp cdp : ℕ) (image_id : String)
    (image_size : Option PySize) (W H : ℚ) (pre : Except String (List RawDet)) :
    ∀ msg fl wa,
      generate_detections_one_image native flag0 cp cdp image_id image_size W H pre
          = .raised msg fl wa →
      msg = TRACEBACK_TYPE_ERROR := by
  intro msg fl wa h
  have core : ∀ (i : String) (f w : Bool) (x : List Detection × ℚ × Option String),
      finishCall i f w x = .raised msg fl wa → msg = TRACEBACK_TYPE_ERROR := by
    intro i f w x hx
    rcases x with ⟨dets, mc, err⟩
    cases err with
    | none => simp [finishCall] at hx
    | some e =>
      simp only [finishCall, GenOutcome.raised.injEq] at hx
      exact hx.1.symm
  cases image_size with
  | none => exact core _ _ _ _ h
  | some sz =>
    by_cases hv : sizeValid sz
    · rw [generate_detections_one_image] at h
      simp only [hv, if_true] at h
      exact core _ _ _ _ h
    · rw [generate_detections_one_image] at h
      simp only [hv, Bool.false_eq_true, if_false, GenOutcome.raised.injEq] at h
      exact h.1.symm

/-- C1 names the intended design, but the code contradicts it (a code bug
evaluated here at failing inputs): when a stage raises — here an external
preprocessing failure — the handler's `traceback.print_exc(e)` raises
`TypeError` to the caller and **no record is returned at all** (first
conjunct), so the call neither returns a record with a `failure` marker nor
shields the caller from exceptions.  Only when every stage succeeds is a
record returned, and that record does echo the identifier in `file`, carries
`max_detection_conf` and `detections`, and has no `failure` field (second
conjunct). -/
theorem claim1_failure_paths_raise :
    (generate_detections_one_image false false 1 1 "img" none 100 100
        (.error "image preprocessing failed")
      = .raised TRACEBACK_TYPE_ERROR false false) ∧
    (generate_detections_one_image false false 1 1 "img" none 100 100 (.ok [])
      = .ret { file := "img", max_detection_conf := 0, detections := [],
               failure := none } false false) :=
  ⟨rfl, rfl⟩

theorem le_foldl_max (l : List ℚ) : ∀ a : ℚ, a ≤ l.foldl max a := by
  induction l with
  | nil => intro a; simp
  | cons x xs ih =>
    intro a
    simpa using le_trans (le_max_left a x) (ih (max a x))

theorem foldl_max_le_of_mem {l : List ℚ} {x : ℚ} (hx : x ∈ l) (a : ℚ) :
    x ≤ l.foldl max a := by
  induction l generalizing a with
  | nil => cases hx
  | cons y ys ih =>
    rcases List.mem_cons.mp hx with rfl | h
    · simpa using le_trans (le_max_right a x) (le_foldl_max ys (max a x))
    · simpa using ih h (max a y)

theorem foldl_max_eq_or_mem (l : List ℚ) : ∀ a : ℚ, l.foldl max a = a ∨ l.foldl max a ∈ l := by
  induction l with
  | nil => intro a; simp
  | cons x xs ih =>
    intro a
    rcases ih (max a x) with h | h
    · rcases max_choice a x with hm | hm
      · left; simp only [List.foldl_cons]; rw [h, hm]
      · right
        have hx : List.foldl max a (x :: xs) = x := by
          simp only [List.foldl_cons]; rw [h, hm]
        rw [hx]; exact List.mem_cons_self x xs
    · right; exact List.mem_cons_of_mem x (by simpa using h)

theorem mem_loopDetections {native : Bool} {cp cdp : ℕ} {W H : ℚ} :
    ∀ {rows : List RawDet} {d : Detection}, d ∈ loopDetections native cp cdp W H rows →
      ∃ r ∈ rows, ∃ c : ℤ, remapClass native r.cls = .ok c ∧
        d = detRowToDetection cp cdp W H c r := by
  intro rows
  induction rows with
  | nil => intro d hd; cases hd
  | cons r rest ih =>
    intro d hd
    simp only [loopDetections] at hd
    cases hc : remapClass native r.cls with
    | error e => rw [hc] at hd; cases hd
    | ok c =>
      rw [hc] at hd
      rcases List.mem_cons.mp hd with rfl | h
      · exact ⟨r, List.mem_cons_self r rest, c, hc, rfl⟩
      · rcases ih h with ⟨r', hr', c', hc', hd'⟩
        exact ⟨r', List.mem_cons_of_mem r hr', c', hc', hd'⟩

theorem truncate_float_nonneg {x : ℚ} (hx : 0 ≤ x) (p : ℕ) : 0 ≤ truncate_float x p := by
  unfold truncate_float
  split
  · exact le_refl 0
  · apply div_nonneg
    · exact_mod_cast Int.floor_nonneg.mpr (mul_nonneg hx (le_of_lt (zpow_pos (by norm_num) _)))
    · exact le_of_lt (zpow_pos (by norm_num) _)

theorem truncate_float_le (x : ℚ) (p : ℕ) : truncate_float x p ≤ x := by
  unfold truncate_float
  split
  · next h => simp [h]
  · next h =>
    set f : ℚ := (10 : ℚ) ^ ((p : ℤ) - 1 - Int.log 10 |x|) with hf
    have hfpos : 0 < f := zpow_pos (by norm_num) _
    rw [div_le_iff₀ hfpos]
    exact Int.floor_le (x * f)

theorem loopDetections_conf_nonneg (native : Bool) (cp cdp : ℕ) (W H : ℚ)
    {rows : List RawDet} (h : ∀ r ∈ rows, 0 ≤ r.conf) :
    ∀ d ∈ loopDetections native cp cdp W H rows, 0 ≤ d.conf := by
  intro d hd
  rcases mem_loopDetections hd with ⟨r, hr, c, _, rfl⟩
  simpa [detRowToDetection] using truncate_float_nonneg (h r hr) cp

theorem maxConf_spec {dets : List Detection} (h : ∀ d ∈ dets, 0 ≤ d.conf) :
    (dets = [] → (dets.map Detection.conf).foldl max 0 = 0) ∧
    (∀ d ∈ dets, d.conf ≤ (dets.map Detection.conf).foldl max 0) ∧
    (dets ≠ [] → ∃ d ∈ dets, (dets.map Detection.conf).foldl max 0 = d.conf) := by
  refine ⟨?_, ?_, ?_⟩
  · rintro rfl; simp
  · intro d hd; exact foldl_max_le_of_mem (List.mem_map_of_mem _ hd) 0
  · intro hne
    rcases foldl_max_eq_or_mem (dets.map Detection.conf) 0 with h0 | hm
    · rcases List.exists_mem_of_ne_nil dets hne with ⟨d0, hd0⟩
      refine ⟨d0, hd0, ?_⟩
      have h1 := foldl_max_le_of_mem (List.mem_map_of_mem Detection.conf hd0) (0 : ℚ)
      rw [h0] at h1 ⊢
      exact le_antisymm (h _ hd0) h1
    · rcases List.mem_map.mp hm with ⟨d, hd, hdc⟩
      exact ⟨d, hd, hdc.symm⟩

/-- C4: in every returned record (records are only returned when every stage
succeeds), `max_detection_conf` equals the maximum of the `conf` values over
`detections` (it is an upper bound attained by some member when the list is
nonempty) and equals 0 when the list is empty.  The hypothesis that raw
confidences are nonnegative is the contract of the external NMS stage
(surviving candidates are scored in `[0, 1]`). -/
theorem claim4_max_detection_conf (native flag0 : Bool) (cp cdp : ℕ)
    (image_id : String) (image_size : Option PySize) (W H : ℚ)
    (pre : Except String (List RawDet)) (res : DetectionResult) (fl wa : Bool)
    (hout : generate_detections_one_image native flag0 cp cdp image_id image_size W H pre
      = .ret res fl wa)
    (hconf : ∀ r ∈ preRows pre, 0 ≤ r.conf) :
    (res.detections = [] → res.max_detection_conf = 0) ∧
    (∀ d ∈ res.detections, d.conf ≤ res.max_detection_conf) ∧
    (res.detections ≠ [] → ∃ d ∈ res.detections, res.max_detection_conf = d.conf) := by
  obtain ⟨rows, hpre, -, hres⟩ :=
    generate_ret_inv native flag0 cp cdp image_id image_size W H pre res fl wa hout
  subst hpre
  subst hres
  have h' : ∀ r ∈ rows.reverse, 0 ≤ r.conf := fun r hr =>
    hconf r (by simpa [preRows] using List.mem_reverse.mp hr)
  have hc := maxConf_spec (loopDetections_conf_nonneg native cp cdp W H h')
  simpa using hc

/-- Witness for C4 at a concrete input: one raw row of confidence `9/10` and
class `0`, remapping enabled. -/
theorem claim4_witness :
    ∃ res : DetectionResult, ∃ fl wa : Bool,
      generate_detections_one_image false false 3 4 "img" none 100 100
          (.ok [{ x1 := 0, y1 := 0, x2 := 100, y2 := 100, conf := 9/10, cls := 0 }])
        = .ret res fl wa ∧
      ((res.detections = [] → res.max_detection_conf = 0) ∧
       (∀ d ∈ res.detections, d.conf ≤ res.max_detection_conf) ∧
       (res.detections ≠ [] → ∃ d ∈ res.detections, res.max_detection_conf = d.conf)) := by
  have h := claim4_max_detection_conf false false 3 4 "img" none 100 100
    (.ok [{ x1 := 0, y1 := 0, x2 := 100, y2 := 100, conf := 9/10, cls := 0 }]) _ _ _ rfl
    (by intro r hr; simp [preRows] at hr; subst hr; norm_num)
  exact ⟨_, _, _, rfl, h⟩

theorem truncate_float_zero (p : ℕ) : truncate_float 0 p = 0 := by
  simp [truncate_float]

/-- C2 is contradicted by the code at this input: with remapping enabled and
rescaled rows `[(conf 9/10, cls 4), (conf 1/2, cls 0)]` (descending
confidence, as the external NMS emits them), the loop over `reversed(det)`
appends the valid `cls 0` detection and then raises `KeyError` on
`cls 4 + 1 = 5`; the boundary catches it, but the handler's
`traceback.print_exc(e)` raises `TypeError`, so the call propagates an
exception and returns **no record at all** — in particular not the
failure-marked record with empty `detections` and `max_detection_conf = 0.0`
that the claim describes. -/
theorem claim2_counterexample :
    generate_detections_one_image false false 1 1 "img" none 100 100
        (.ok [{ x1 := 0, y1 := 0, x2 := 100, y2 := 100, conf := 9/10, cls := 4 },
              { x1 := 0, y1 := 0, x2 := 100, y2 := 100, conf := 1/2, cls := 0 }])
      = .raised TRACEBACK_TYPE_ERROR false false :=
  rfl

/-- C2 amended (changed only as far as the counterexample forces): a call
ends in an exception propagated to the caller exactly when some stage raises
(the `image_size` assertion, an external stage, or the class remap), and in
that case the propagated exception is the handler's own `TypeError` from
`traceback.print_exc(e)`: no record is returned, so no failure marker, no
`detections` and no `max_detection_conf` are observable (the handler writes
the failure marker only into the local, discarded record). -/
theorem claim2_amended (native flag0 : Bool) (cp cdp : ℕ)
    (image_id : String) (image_size : Option PySize) (W H : ℚ)
    (pre : Except String (List RawDet)) :
    ((generate_detections_one_image native flag0 cp cdp image_id image_size W H pre).isRaised
      = anyStageRaises native image_size pre) ∧
    (anyStageRaises native image_size pre = true →
      ∃ fl wa, generate_detections_one_image native flag0 cp cdp image_id image_size W H pre
        = .raised TRACEBACK_TYPE_ERROR fl wa) := by
  constructor
  · exact generate_isRaised_eq native flag0 cp cdp image_id image_size W H pre
  · intro hA
    have hR : (generate_detections_one_image native flag0 cp cdp image_id image_size W H
        pre).isRaised = true := by
      rw [generate_isRaised_eq]
      exact hA
    cases hout : generate_detections_one_image native flag0 cp cdp image_id image_size W H pre with
    | ret r f w => rw [hout] at hR; simp [GenOutcome.isRaised] at hR
    | raised msg f w =>
      have hmsg := generate_raised_msg native flag0 cp cdp image_id image_size W H pre
        msg f w hout
      exact ⟨f, w, by rw [hmsg]⟩

/-- Witness for the amended C2 at a concrete input (an invalid `image_size`,
an exception before the loop). -/
theorem claim2_witness :
    ((generate_detections_one_image false false 1 1 "img" (some (.seq [1, 2, 3]))
        100 100 (.ok [])).isRaised
      = anyStageRaises false (some (.seq [1, 2, 3])) (.ok [])) ∧
    ∃ fl wa,
      generate_detections_one_image false false 1 1 "img" (some (.seq [1, 2, 3]))
          100 100 (.ok [])
        = .raised TRACEBACK_TYPE_ERROR fl wa :=
  ⟨(claim2_amended false false 1 1 "img" (some (.seq [1, 2, 3])) 100 100 (.ok [])).1,
   (claim2_amended false false 1 1 "img" (some (.seq [1, 2, 3])) 100 100 (.ok [])).2
     (by decide)⟩

/-- C3 is refuted at this input: an `image_size` of length 3 (neither an int
nor a length-2 pair) is **not** raised to the caller as a fail-fast
configuration error escaping the boundary — the `assert` sits inside the
`try` and `except Exception` catches the `AssertionError` exactly like a data
error, as witnessed by the call producing the very same outcome as an
inference-stage failure: in both cases what reaches the caller is only the
handler's `TypeError` from `traceback.print_exc(e)`. -/
theorem claim3_counterexample :
    (generate_detections_one_image false false 1 1 "img" (some (.seq [1, 2, 3]))
        100 100 (.ok [])
      = .raised TRACEBACK_TYPE_ERROR false false) ∧
    (generate_detections_one_image false false 1 1 "img" none 100 100
        (.error "inference stage failure")
      = .raised TRACEBACK_TYPE_ERROR false false) :=
  ⟨rfl, rfl⟩

/-- C3 amended (changed only as far as the counterexample forces): an invalid
`image_size` raises `AssertionError` before any preprocessing work, and the
per-image boundary catches (swallows) it like any data error; the handler's
`traceback.print_exc(e)` then raises `TypeError`, so the call does end in an
exception to the caller — the handler's `TypeError`, identical to every other
failure path, rather than the configuration error itself — the warning flag is
left untouched, no warning is printed, and no record (failure-marked or
otherwise) is returned. -/
theorem claim3_amended (native flag0 : Bool) (cp cdp : ℕ)
    (image_id : String) (sz : PySize) (W H : ℚ)
    (pre : Except String (List RawDet))
    (hv : sizeValid sz = false) :
    generate_detections_one_image native flag0 cp cdp image_id (some sz) W H pre
      = .raised TRACEBACK_TYPE_ERROR flag0 false := by
  simp [generate_detections_one_image, hv]

/-- Witness for the amended C3 at a concrete input. -/
theorem claim3_witness :
    generate_detections_one_image false true 1 1 "img" (some (.seq [])) 100 100 (.ok [])
      = .raised TRACEBACK_TYPE_ERROR true false :=
  claim3_amended false true 1 1 "img" (.seq []) 100 100 (.ok []) (by decide)

theorem remapClass_true_eq (cls : ℤ) : remapClass true cls = .ok cls := rfl

theorem remapClass_false_inv {cls c : ℤ} (h : remapClass false cls = .ok c) :
    c = cls + 1 ∧ (cls + 1 = 1 ∨ cls + 1 = 2 ∨ cls + 1 = 3) := by
  simp only [remapClass, Bool.false_eq_true, if_false] at h
  split at h
  · next hm => exact ⟨(Except.ok.inj h).symm, by omega⟩
  · exact Except.noConfusion h

theorem remapClass_false_err {cls : ℤ}
    (hm : ¬(cls + 1 = 1 ∨ cls + 1 = 2 ∨ cls + 1 = 3)) :
    ∀ c, remapClass false cls ≠ .ok c := by
  intro c h
  simp only [remapClass, Bool.false_eq_true, if_false] at h
  split at h
  · next hmm => exact hm (by omega)
  · exact Except.noConfusion h

theorem loopError_none_of_true (rows : List RawDet) : loopError true rows = none := by
  induction rows with
  | nil => rfl
  | cons r rest ih => simpa [loopError, remapClass_true_eq] using ih

theorem loopDetections_forall₂ (native : Bool) (cp cdp : ℕ) (W H : ℚ) :
    ∀ {rows : List RawDet}, loopError native rows = none →
      List.Forall₂ (fun d r => ∃ c, remapClass native r.cls = .ok c ∧
        d = detRowToDetection cp cdp W H c r) (loopDetections native cp cdp W H rows) rows := by
  intro rows
  induction rows with
  | nil => intro _; exact List.Forall₂.nil
  | cons r rest ih =>
    intro h
    cases hc : remapClass native r.cls with
    | error e => simp [loopError, hc] at h
    | ok c =>
      simp only [loopError, hc] at h
      simp only [loopDetections, hc]
      exact List.Forall₂.cons ⟨c, hc, rfl⟩ (ih h)

theorem loopError_isSome_of_invalid (native : Bool) :
    ∀ {rows : List RawDet}, (∃ r ∈ rows, ∀ c, remapClass native r.cls ≠ .ok c) →
      (loopError native rows).isSome = true := by
  intro rows
  induction rows with
  | nil => rintro ⟨r, hr, _⟩; cases hr
  | cons r rest ih =>
    rintro ⟨r', hr', hbad⟩
    cases hc : remapClass native r.cls with
    | error e => simp [loopError, hc]
    | ok c =>
      simp only [loopError, hc]
      rcases List.mem_cons.mp hr' with rfl | hmem
      · exact absurd hc (hbad c)
      · exact ih ⟨r', hmem, hbad⟩

theorem loopError_none_inv {native : Bool} :
    ∀ {rows : List RawDet}, loopError native rows = none →
      ∀ r ∈ rows, ∃ k, remapClass native r.cls = .ok k := by
  intro rows
  induction rows with
  | nil => intro _ r hr; cases hr
  | cons r rest ih =>
    intro h r' hr'
    cases hc : remapClass native r.cls with
    | error e => simp [loopError, hc] at h
    | ok c =>
      simp only [loopError, hc] at h
      rcases List.mem_cons.mp hr' with rfl | hmem
      · exact ⟨c, hc⟩
      · exact ih h r' hmem

/-- C5: class-label policy.  With remapping enabled (`use_model_native_classes
= False`), whenever the call returns a record its detections correspond
one-to-one to the rescaled rows in processing order, each `category` being
the 0-based native index plus one rendered as a string, and that id always
lies in the recognized set `{1, 2, 3}`; if any row's remapped id falls outside
the set, the whole image fails hard — the call ends in an exception and no
record (hence no detection) is produced for it.  With passthrough enabled,
each `category` is the unmodified native index as a string. -/
theorem claim5_category_policy (flag0 : Bool) (cp cdp : ℕ) (image_id : String)
    (image_size : Option PySize) (W H : ℚ) (rows : List RawDet) :
    (∀ res fl wa,
      generate_detections_one_image false flag0 cp cdp image_id image_size W H (.ok rows)
          = .ret res fl wa →
      List.Forall₂ (fun d r => d.category = toString (r.cls + 1) ∧
          (r.cls + 1 = 1 ∨ r.cls + 1 = 2 ∨ r.cls + 1 = 3)) res.detections rows.reverse) ∧
    ((∃ r ∈ rows, ¬(r.cls + 1 = 1 ∨ r.cls + 1 = 2 ∨ r.cls + 1 = 3)) →
      (generate_detections_one_image false flag0 cp cdp image_id image_size W H
          (.ok rows)).isRaised = true) ∧
    (sizeOk image_size = true →
      ∃ res fl wa,
        generate_detections_one_image true flag0 cp cdp image_id image_size W H (.ok rows)
            = .ret res fl wa ∧
        List.Forall₂ (fun d r => d.category = toString r.cls) res.detections rows.reverse) := by
  refine ⟨?_, ?_, ?_⟩
  · intro res fl wa h
    obtain ⟨hnone, hres⟩ :=
      generate_ok_ret_inv false flag0 cp cdp image_id image_size W H rows res fl wa h
    subst hres
    have h2 := loopDetections_forall₂ false cp cdp W H hnone
    refine h2.imp ?_
    rintro d r ⟨c, hc, rfl⟩
    rcases remapClass_false_inv hc with ⟨rfl, hmem⟩
    exact ⟨rfl, hmem⟩
  · rintro ⟨r, hr, hbad⟩
    rw [generate_isRaised_eq]
    have hsome := loopError_isSome_of_invalid false
      ⟨r, List.mem_reverse.mpr hr, remapClass_false_err hbad⟩
    cases image_size with
    | none => simpa [anyStageRaises] using hsome
    | some sz =>
      by_cases hv : sizeValid sz
      · simpa [anyStageRaises, hv] using hsome
      · simp [anyStageRaises, hv]
  · intro hs
    obtain ⟨fl, wa, hret⟩ := generate_ok_ret true flag0 cp cdp image_id image_size W H rows hs
      (loopError_none_of_true rows.reverse)
    refine ⟨_, fl, wa, hret, ?_⟩
    have h2 := loopDetections_forall₂ true cp cdp W H (loopError_none_of_true rows.reverse)
    refine h2.imp ?_
    rintro d r ⟨c, hc, rfl⟩
    rw [remapClass_true_eq] at hc
    cases hc
    exact rfl

/-- Witness for C5 at concrete inputs: a `cls 0` row remaps to category `"1"`
on a returned record; a `cls 4` row makes the whole image fail (the call ends
in an exception); with passthrough a `cls 7` row passes through as `"7"`. -/
theorem claim5_witness :
    (∃ res : DetectionResult, ∃ fl wa : Bool,
      generate_detections_one_image false false 1 1 "img" none 100 100
          (.ok [{ x1 := 0, y1 := 0, x2 := 100, y2 := 100, conf := 1/2, cls := 0 }])
        = .ret res fl wa ∧
      List.Forall₂ (fun d r => d.category = toString (r.cls + 1) ∧
          (r.cls + 1 = 1 ∨ r.cls + 1 = 2 ∨ r.cls + 1 = 3)) res.detections
        ([{ x1 := 0, y1 := 0, x2 := 100, y2 := 100, conf := 1/2, cls := 0 }] : List RawDet).reverse) ∧
    ((generate_detections_one_image false false 1 1 "img" none 100 100
        (.ok [{ x1 := 0, y1 := 0, x2 := 100, y2 := 100, conf := 1/2, cls := 4 }])).isRaised
      = true) ∧
    (∃ res : DetectionResult, ∃ fl wa : Bool,
      generate_detections_one_image true false 1 1 "img" none 100 100
          (.ok [{ x1 := 0, y1 := 0, x2 := 100, y2 := 100, conf := 1/2, cls := 7 }])
        = .ret res fl wa ∧
      List.Forall₂ (fun d r => d.category = toString r.cls) res.detections
        ([{ x1 := 0, y1 := 0, x2 := 100, y2 := 100, conf := 1/2, cls := 7 }] : List RawDet).reverse) :=
  ⟨⟨_, _, _, rfl,
    (claim5_category_policy false 1 1 "img" none 100 100 _).1 _ _ _ rfl⟩,
   (claim5_category_policy false 1 1 "img" none 100 100 _).2.1
     ⟨_, List.mem_cons_self _ _, by decide⟩,
   (claim5_category_policy false 1 1 "img" none 100 100 _).2.2 rfl⟩

/-- C10: with native-class passthrough enabled at construction, no category
validation happens: provided the earlier stages succeed, the call never
raises — it returns a record with no failure marker — and every row yields a
detection whose `category` is exactly its raw native index as a string,
whatever that index is. -/
theorem claim10_no_validation_when_native (flag0 : Bool) (cp cdp : ℕ)
    (image_id : String) (image_size : Option PySize) (W H : ℚ) (rows : List RawDet)
    (hs : sizeOk image_size = true) :
    ∃ res : DetectionResult, ∃ fl wa : Bool,
      generate_detections_one_image true flag0 cp cdp image_id image_size W H (.ok rows)
        = .ret res fl wa ∧
      res.failure = none ∧
      List.Forall₂ (fun d r => d.category = toString r.cls) res.detections rows.reverse := by
  obtain ⟨fl, wa, hret⟩ := generate_ok_ret true flag0 cp cdp image_id image_size W H rows hs
    (loopError_none_of_true rows.reverse)
  refine ⟨_, fl, wa, hret, rfl, ?_⟩
  have h2 := loopDetections_forall₂ true cp cdp W H (loopError_none_of_true rows.reverse)
  refine h2.imp ?_
  rintro d r ⟨c, hc, rfl⟩
  rw [remapClass_true_eq] at hc
  cases hc
  exact rfl

/-- Witness for C10 at a concrete input: two rows with out-of-enumeration
native classes `7` and `-5` both survive into a returned, failure-free
record. -/
theorem claim10_witness :
    ∃ res : DetectionResult, ∃ fl wa : Bool,
      generate_detections_one_image true false 1 1 "img" (some (.int 640)) 100 100
          (.ok [{ x1 := 0, y1 := 0, x2 := 100, y2 := 100, conf := 1/2, cls := 7 },
                { x1 := 0, y1 := 0, x2 := 100, y2 := 100, conf := 1/2, cls := -5 }])
        = .ret res fl wa ∧
      res.failure = none ∧
      List.Forall₂ (fun d r => d.category = toString r.cls) res.detections
        ([{ x1 := 0, y1 := 0, x2 := 100, y2 := 100, conf := 1/2, cls := 7 },
          { x1 := 0, y1 := 0, x2 := 100, y2 := 100, conf := 1/2, cls := -5 }] : List RawDet).reverse :=
  claim10_no_validation_when_native false 1 1 "img" (some (.int 640)) 100 100 _ rfl

/-- C8: the one-time size-override warning state (lines 59, 102-114).  For a
valid supplied (non-default) `image_size`: if the flag is unset the warning is
printed and the flag set; if the flag is already set no warning is printed
(and the flag stays set).  Any call with the size omitted clears the flag and
prints nothing, restoring eligibility for a later warning.  (These flag
mutations and the print happen before the external stages run, so they hold
whether the call returns or raises.) -/
theorem claim8_warning_state (native flag0 : Bool) (cp cdp : ℕ)
    (image_id : String) (image_size : Option PySize) (W H : ℚ)
    (pre : Except String (List RawDet)) :
    (∀ sz, image_size = some sz → sizeValid sz = true → flag0 = false →
      (generate_detections_one_image native flag0 cp cdp image_id image_size W H pre).warned
          = true ∧
        (generate_detections_one_image native flag0 cp cdp image_id image_size W H pre).flag
          = true) ∧
    (∀ sz, image_size = some sz → sizeValid sz = true → flag0 = true →
      (generate_detections_one_image native flag0 cp cdp image_id image_size W H pre).warned
          = false ∧
        (generate_detections_one_image native flag0 cp cdp image_id image_size W H pre).flag
          = true) ∧
    (image_size = none →
      (generate_detections_one_image native flag0 cp cdp image_id image_size W H pre).warned
          = false ∧
        (generate_detections_one_image native flag0 cp cdp image_id image_size W H pre).flag
          = false) := by
  refine ⟨?_, ?_, ?_⟩
  · rintro sz rfl hv rfl
    simp [generate_detections_one_image, hv, finishCall_warned, finishCall_flag]
  · rintro sz rfl hv rfl
    simp [generate_detections_one_image, hv, finishCall_warned, finishCall_flag]
  · rintro rfl
    simp [generate_detections_one_image, finishCall_warned, finishCall_flag]

/-- Witness for C8 at concrete inputs: the full scenario of the claim — first
non-default call warns and sets the flag, a second non-default call with the
flag set does not warn, a default-size call clears the flag. -/
theorem claim8_witness :
    ((generate_detections_one_image false false 1 1 "img" (some (.int 640)) 100 100
        (.ok [])).warned = true ∧
      (generate_detections_one_image false false 1 1 "img" (some (.int 640)) 100 100
        (.ok [])).flag = true) ∧
    ((generate_detections_one_image false true 1 1 "img" (some (.int 640)) 100 100
        (.ok [])).warned = false ∧
      (generate_detections_one_image false true 1 1 "img" (some (.int 640)) 100 100
        (.ok [])).flag = true) ∧
    ((generate_detections_one_image false true 1 1 "img" none 100 100
        (.ok [])).warned = false ∧
      (generate_detections_one_image false true 1 1 "img" none 100 100
        (.ok [])).flag = false) :=
  ⟨(claim8_warning_state false false 1 1 "img" (some (.int 640)) 100 100
      (.ok [])).1 _ rfl rfl rfl,
   (claim8_warning_state false true 1 1 "img" (some (.int 640)) 100 100
      (.ok [])).2.1 _ rfl rfl rfl,
   (claim8_warning_state false true 1 1 "img" none 100 100 (.ok [])).2.2 rfl⟩

theorem truncate_float_hasSigDigits {x : ℚ} (hx : 0 ≤ x) (p : ℕ) :
    hasSigDigits p (truncate_float x p) := by
  rcases eq_or_lt_of_le hx with h0 | hpos
  · rw [← h0, truncate_float_zero]
    refine ⟨0, 0, by simp, ?_⟩
    simp only [Int.natAbs_zero]
    exact pow_pos (by norm_num) p
  · have hxne : x ≠ 0 := ne_of_gt hpos
    rw [truncate_float, if_neg hxne, abs_of_pos hpos]
    set e : ℤ := (p : ℤ) - 1 - Int.log 10 x with he
    set f : ℚ := (10 : ℚ) ^ e with hf
    have hfpos : 0 < f := zpow_pos (by norm_num) _
    refine ⟨⌊x * f⌋, -e, ?_, ?_⟩
    · rw [zpow_neg, div_eq_mul_inv]
    · have hlt : x < (10 : ℚ) ^ (Int.log 10 x + 1) := by
        have h10 : ((10 : ℕ) : ℚ) = (10 : ℚ) := by norm_num
        have := Int.lt_zpow_succ_log_self (b := 10) (by norm_num) x
        rwa [h10] at this
      have hub : x * f < (10 : ℚ) ^ (p : ℤ) := by
        calc x * f < (10 : ℚ) ^ (Int.log 10 x + 1) * f :=
              mul_lt_mul_of_pos_right hlt hfpos
          _ = (10 : ℚ) ^ (p : ℤ) := by
              rw [hf, ← zpow_add₀ (by norm_num : (10 : ℚ) ≠ 0)]
              congr 1
              omega
      have hge : 0 ≤ ⌊x * f⌋ := Int.floor_nonneg.mpr (mul_nonneg hx (le_of_lt hfpos))
      have hfl : ⌊x * f⌋ < (10 : ℤ) ^ p := by
        have h1 : (⌊x * f⌋ : ℚ) ≤ x * f := Int.floor_le _
        have h2 : (⌊x * f⌋ : ℚ) < (10 : ℚ) ^ (p : ℤ) := lt_of_le_of_lt h1 hub
        have h3 : ((10 : ℤ) ^ p : ℚ) = (10 : ℚ) ^ (p : ℤ) := by
          push_cast
          rw [zpow_natCast]
        rw [← h3] at h2
        exact_mod_cast h2
      have h4 : (⌊x * f⌋.natAbs : ℤ) = ⌊x * f⌋ := Int.natAbs_of_nonneg hge
      have h5 : ((10 : ℕ) ^ p : ℤ) = (10 : ℤ) ^ p := by push_cast; ring
      rw [← h4, ← h5] at hfl
      exact_mod_cast hfl

theorem truncate_float_gap {x : ℚ} (hpos : 0 < x) (p : ℕ) :
    x - truncate_float x p < (10 : ℚ) ^ (Int.log 10 x - (p : ℤ) + 1) := by
  have hxne : x ≠ 0 := ne_of_gt hpos
  rw [truncate_float, if_neg hxne, abs_of_pos hpos]
  set e : ℤ := (p : ℤ) - 1 - Int.log 10 x with he
  set f : ℚ := (10 : ℚ) ^ e with hf
  have hfpos : 0 < f := zpow_pos (by norm_num) _
  have h1 : x * f - 1 < (⌊x * f⌋ : ℚ) := Int.sub_one_lt_floor (x * f)
  have target : (10 : ℚ) ^ (Int.log 10 x - (p : ℤ) + 1) = f⁻¹ := by
    rw [hf, ← zpow_neg]
    congr 1
    omega
  rw [target, sub_lt_iff_lt_add]
  have h2 : x * f < (⌊x * f⌋ : ℚ) + 1 := by linarith
  rw [← lt_div_iff₀ hfpos] at h2
  calc x < ((⌊x * f⌋ : ℚ) + 1) / f := h2
    _ = f⁻¹ + (⌊x * f⌋ : ℚ) / f := by rw [add_div, one_div, add_comm]

theorem detRow_bbox (cp cdp : ℕ) (W H : ℚ) (c : ℤ) (r : RawDet) :
    (detRowToDetection cp cdp W H c r).bbox =
      [truncate_float (r.x1 / W) cdp, truncate_float (r.y1 / H) cdp,
       truncate_float ((r.x2 - r.x1) / W) cdp, truncate_float ((r.y2 - r.y1) / H) cdp] := by
  have e1 : (r.x1 + r.x2) / 2 / W - (r.x2 - r.x1) / W / 2 = r.x1 / W := by ring
  have e2 : (r.y1 + r.y2) / 2 / H - (r.y2 - r.y1) / H / 2 = r.y1 / H := by ring
  simp [detRowToDetection, xyxy2xywh, divGn, convert_yolo_to_xywh, truncate_float_array, e1, e2]

theorem loopDetections_precision {native : Bool} {cp cdp : ℕ} {W H : ℚ}
    (hW : 0 < W) (hH : 0 < H) {rows : List RawDet}
    (hrows : ∀ r ∈ rows, 0 ≤ r.conf ∧ r.conf ≤ 1 ∧
      0 ≤ r.x1 ∧ r.x1 ≤ r.x2 ∧ r.x2 ≤ W ∧ 0 ≤ r.y1 ∧ r.y1 ≤ r.y2 ∧ r.y2 ≤ H) :
    ∀ d ∈ loopDetections native cp cdp W H rows,
      (0 ≤ d.conf ∧ d.conf ≤ 1 ∧ hasSigDigits cp d.conf) ∧
      (∀ b ∈ d.bbox, 0 ≤ b ∧ b ≤ 1 ∧ hasSigDigits cdp b) := by
  intro d hd
  rcases mem_loopDetections hd with ⟨r, hr, c, _, rfl⟩
  obtain ⟨hc0, hc1, hx0, hx12, hx2W, hy0, hy12, hy2H⟩ := hrows r hr
  have bounds : ∀ a : ℚ, 0 ≤ a → a ≤ 1 →
      0 ≤ truncate_float a cdp ∧ truncate_float a cdp ≤ 1 ∧
        hasSigDigits cdp (truncate_float a cdp) :=
    fun a ha0 ha1 => ⟨truncate_float_nonneg ha0 cdp,
      le_trans (truncate_float_le a cdp) ha1, truncate_float_hasSigDigits ha0 cdp⟩
  constructor
  · refine ⟨?_, ?_, ?_⟩
    · simpa [detRowToDetection] using truncate_float_nonneg hc0 cp
    · simp only [detRowToDetection]
      exact le_trans (truncate_float_le r.conf cp) hc1
    · simpa [detRowToDetection] using truncate_float_hasSigDigits hc0 cp
  · intro b hb
    rw [detRow_bbox] at hb
    simp only [List.mem_cons, List.not_mem_nil, or_false] at hb
    rcases hb with rfl | rfl | rfl | rfl
    · exact bounds _ (div_nonneg hx0 (le_of_lt hW))
        ((div_le_one hW).mpr (le_trans hx12 hx2W))
    · exact bounds _ (div_nonneg hy0 (le_of_lt hH))
        ((div_le_one hH).mpr (le_trans hy12 hy2H))
    · exact bounds _ (div_nonneg (by linarith) (le_of_lt hW))
        ((div_le_one hW).mpr (by linarith))
    · exact bounds _ (div_nonneg (by linarith) (le_of_lt hH))
        ((div_le_one hH).mpr (by linarith))

/-- C6: in any returned result (records exist only on the success path) every
detection's `conf` lies in `[0, 1]` and has at most `cp = CONF_DIGITS`
significant decimal digits, and every `bbox` component lies in `[0, 1]` and
has at most `cdp = COORD_DIGITS` significant decimal digits; moreover the
digit limit is achieved by flooring at the digit boundary — `truncate_float`
never exceeds its argument and falls short of it by less than one unit in the
last kept digit — not by rounding to nearest.  The hypotheses on the rows are
the contracts of the external stages: NMS yields confidences in `[0, 1]` and
`scale_coords` clips boxes to the image. -/
theorem claim6_precision (native flag0 : Bool) (cp cdp : ℕ) (image_id : String)
    (image_size : Option PySize) (W H : ℚ) (pre : Except String (List RawDet))
    (res : DetectionResult) (fl wa : Bool)
    (hout : generate_detections_one_image native flag0 cp cdp image_id image_size W H pre
      = .ret res fl wa)
    (hW : 0 < W) (hH : 0 < H)
    (hrows : ∀ r ∈ preRows pre, 0 ≤ r.conf ∧ r.conf ≤ 1 ∧
      0 ≤ r.x1 ∧ r.x1 ≤ r.x2 ∧ r.x2 ≤ W ∧ 0 ≤ r.y1 ∧ r.y1 ≤ r.y2 ∧ r.y2 ≤ H) :
    (∀ d ∈ res.detections,
      (0 ≤ d.conf ∧ d.conf ≤ 1 ∧ hasSigDigits cp d.conf) ∧
      (∀ b ∈ d.bbox, 0 ≤ b ∧ b ≤ 1 ∧ hasSigDigits cdp b)) ∧
    (∀ x : ℚ, 0 ≤ x →
      truncate_float x cp ≤ x ∧
      (0 < x → x - truncate_float x cp < (10 : ℚ) ^ (Int.log 10 x - (cp : ℤ) + 1))) := by
  constructor
  · obtain ⟨rows, hpre, -, hres⟩ :=
      generate_ret_inv native flag0 cp cdp image_id image_size W H pre res fl wa hout
    subst hpre
    subst hres
    exact loopDetections_precision hW hH
      (fun r hr => hrows r (by simpa [preRows] using List.mem_reverse.mp hr))
  · exact fun x hx =>
      ⟨truncate_float_le x cp, fun hpos => truncate_float_gap hpos cp⟩

/-- Witness for C6 at a concrete input: one in-bounds row of confidence `1/2`. -/
theorem claim6_witness :
    ∃ res : DetectionResult, ∃ fl wa : Bool,
      generate_detections_one_image false false 3 4 "img" none 200 100
          (.ok [{ x1 := 10, y1 := 20, x2 := 150, y2 := 90, conf := 1/2, cls := 0 }])
        = .ret res fl wa ∧
      ((∀ d ∈ res.detections,
          (0 ≤ d.conf ∧ d.conf ≤ 1 ∧ hasSigDigits 3 d.conf) ∧
          (∀ b ∈ d.bbox, 0 ≤ b ∧ b ≤ 1 ∧ hasSigDigits 4 b)) ∧
       (∀ x : ℚ, 0 ≤ x →
          truncate_float x 3 ≤ x ∧
          (0 < x → x - truncate_float x 3 < (10 : ℚ) ^ (Int.log 10 x - (3 : ℤ) + 1)))) := by
  have h := claim6_precision false false 3 4 "img" none 200 100
    (.ok [{ x1 := 10, y1 := 20, x2 := 150, y2 := 90, conf := 1/2, cls := 0 }]) _ _ _ rfl
    (by norm_num) (by norm_num)
    (by
      intro r hr
      simp only [preRows, List.mem_singleton] at hr
      subst hr
      norm_num)
  exact ⟨_, _, _, rfl, h⟩

/-- C9: for any original dimensions and any valid (positive) target size, the
composition of the forward letterbox transform with the recorded-parameter
inverse applied in post-processing returns every coordinate to the original
pixel grid within ±1 pixel: the scale and padding cancel exactly, and the
final rounding to integer pixel boundaries moves the value by at most 1/2. -/
theorem claim9_roundtrip (H W Th Tw stride x y : ℚ)
    (hH : 0 < H) (hW : 0 < W) (hTh : 0 < Th) (hTw : 0 < Tw)
    (r dx dy : ℚ) (hparams : letterboxParams H W Th Tw stride = (r, dx, dy)) :
    |(scale_coords_point r dx dy (letterboxPoint r dx dy (x, y))).1 - x| ≤ 1 ∧
    |(scale_coords_point r dx dy (letterboxPoint r dx dy (x, y))).2 - y| ≤ 1 := by
  simp only [letterboxParams, Prod.mk.injEq] at hparams
  obtain ⟨hr, -, -⟩ := hparams
  have hrpos : 0 < r := hr ▸ lt_min (div_pos hTh hH) (div_pos hTw hW)
  have key : ∀ a p : ℚ, (r * a + p - p) / r = a := by
    intro a p
    rw [add_sub_cancel_right]
    exact mul_div_cancel_left₀ a (ne_of_gt hrpos)
  simp only [scale_coords_point, letterboxPoint]
  constructor
  · rw [key x dx, abs_sub_comm]
    exact le_trans (abs_sub_round x) (by norm_num)
  · rw [key y dy, abs_sub_comm]
    exact le_trans (abs_sub_round y) (by norm_num)

/-- Witness for C9 at a concrete input: a 100×200 image, square target 1280,
stride 64 (scale 32/5, no padding), point (50, 25). -/
theorem claim9_witness :
    |(scale_coords_point (32/5) 0 0 (letterboxPoint (32/5) 0 0 (50, 25))).1 - 50| ≤ 1 ∧
    |(scale_coords_point (32/5) 0 0 (letterboxPoint (32/5) 0 0 (50, 25))).2 - 25| ≤ 1 :=
  claim9_roundtrip 100 200 1280 1280 64 50 25 (by norm_num) (by norm_num)
    (by norm_num) (by norm_num) (32/5) 0 0 (by
      simp only [letterboxParams]
      norm_num)

theorem nmsGreedy_segment_mono (ov : RawDet → RawDet → Bool) :
    ∀ (n : ℕ) (L P : List RawDet), L.length ≤ n → (∃ s, P ++ s = L) →
      ∃ s', nmsGreedy ov P ++ s' = nmsGreedy ov L := by
  intro n
  induction n with
  | zero =>
    intro L P hL hpre
    have hLnil : L = [] := List.length_eq_zero.mp (Nat.le_zero.mp hL)
    subst hLnil
    rcases hpre with ⟨s, hs⟩
    cases P with
    | nil => exact ⟨[], by simp⟩
    | cons a as => simp at hs
  | succ n ih =>
    intro L P hL hpre
    rcases hpre with ⟨s, hs⟩
    cases P with
    | nil => exact ⟨nmsGreedy ov L, by simp [nmsGreedy]⟩
    | cons a p' =>
      subst hs
      have hlen : (((p' ++ s).filter (fun d => !(ov a d))).length) ≤ n := by
        have h1 : ((p' ++ s).filter (fun d => !(ov a d))).length ≤ (p' ++ s).length :=
          List.length_filter_le _ _
        have h2 : (a :: (p' ++ s)).length ≤ n + 1 := by simpa using hL
        simp only [List.length_cons] at h2
        omega
      have hpre' : ∃ s0, (p'.filter (fun d => !(ov a d))) ++ s0
          = (p' ++ s).filter (fun d => !(ov a d)) :=
        ⟨s.filter (fun d => !(ov a d)), (List.filter_append _ _).symm⟩
      obtain ⟨s', hs'⟩ := ih _ _ hlen hpre'
      refine ⟨s', ?_⟩
      simp only [List.cons_append, nmsGreedy]
      rw [hs']

theorem nmsGreedy_subset (ov : RawDet → RawDet → Bool) :
    ∀ (n : ℕ) (L : List RawDet), L.length ≤ n → ∀ a ∈ nmsGreedy ov L, a ∈ L := by
  intro n
  induction n with
  | zero =>
    intro L hL a ha
    have hLnil : L = [] := List.length_eq_zero.mp (Nat.le_zero.mp hL)
    subst hLnil
    simp [nmsGreedy] at ha
  | succ n ih =>
    intro L hL a ha
    cases L with
    | nil => simp [nmsGreedy] at ha
    | cons c rest =>
      simp only [nmsGreedy, List.mem_cons] at ha
      rcases ha with rfl | ha
      · exact List.mem_cons_self _ _
      · have hlen : (rest.filter (fun d => !(ov c d))).length ≤ n := by
          have h1 := List.length_filter_le (fun d => !(ov c d)) rest
          simp only [List.length_cons] at hL
          omega
        have hmem := ih _ hlen a ha
        exact List.mem_cons_of_mem _ (List.mem_of_mem_filter hmem)

theorem filter_conf_segment_of_sorted {t t' : ℚ} (htt : t ≤ t') :
    ∀ {cands : List RawDet}, List.Pairwise (fun a b => b.conf ≤ a.conf) cands →
      ∃ s, (cands.filter (fun c => t' ≤ c.conf)) ++ s
        = cands.filter (fun c => t ≤ c.conf) := by
  intro cands h
  induction cands with
  | nil => exact ⟨[], rfl⟩
  | cons x xs ih =>
    rcases List.pairwise_cons.mp h with ⟨hx, hxs⟩
    by_cases hx' : t' ≤ x.conf
    · have hxt : t ≤ x.conf := le_trans htt hx'
      rcases ih hxs with ⟨s, hs⟩
      refine ⟨s, ?_⟩
      rw [List.filter_cons_of_pos (by simpa using hx'),
        List.filter_cons_of_pos (by simpa using hxt)]
      simpa using hs
    · have hnil : xs.filter (fun c : RawDet => t' ≤ c.conf) = [] := by
        rw [List.filter_eq_nil_iff]
        intro a ha
        simp only [decide_eq_true_eq]
        intro hta
        exact hx' (le_trans hta (hx a ha))
      refine ⟨(x :: xs).filter (fun c : RawDet => t ≤ c.conf), ?_⟩
      rw [List.filter_cons_of_neg (by simpa using hx'), hnil]
      simp

theorem loopDetections_length {native : Bool} {cp cdp : ℕ} {W H : ℚ} :
    ∀ {rows : List RawDet}, (∀ r ∈ rows, ∃ k, remapClass native r.cls = .ok k) →
      (loopDetections native cp cdp W H rows).length = rows.length := by
  intro rows
  induction rows with
  | nil => intro _; rfl
  | cons r rest ih =>
    intro hok
    rcases hok r (List.mem_cons_self r rest) with ⟨k, hk⟩
    simp only [loopDetections, hk, List.length_cons]
    rw [ih (fun r' hr' => hok r' (List.mem_cons_of_mem r hr'))]

theorem nms_segment_of_sorted (ov : RawDet → RawDet → Bool) {t t' : ℚ}
    (htt : t ≤ t') {cands : List RawDet}
    (hsorted : List.Pairwise (fun a b => b.conf ≤ a.conf) cands) :
    ∃ s, non_max_suppression ov t' cands ++ s = non_max_suppression ov t cands := by
  rcases filter_conf_segment_of_sorted htt hsorted with ⟨s, hs⟩
  exact nmsGreedy_segment_mono ov (cands.filter (fun c => t ≤ c.conf)).length _ _
    (le_refl _) ⟨s, hs⟩

/-- C7: for a fixed candidate set (sorted by descending confidence, as the
external model emits it), raising the confidence threshold never increases
the number of detections surviving filtering and suppression (first
conjunct), and consequently never increases the number of detections in the
result: whenever both calls return records, the higher-threshold record has
no more detections (second conjunct).  Supplying a threshold of 1.0 yields a
returned record with zero detections (third conjunct; the hypothesis that
every candidate confidence is below 1 is the contract of the model's sigmoid
scores). -/
theorem claim7_threshold (ov : RawDet → RawDet → Bool) (native flag0 : Bool)
    (cp cdp : ℕ) (image_id : String) (image_size : Option PySize) (W H : ℚ)
    (t t' : ℚ) (cands : List RawDet)
    (hsorted : List.Pairwise (fun a b => b.conf ≤ a.conf) cands)
    (htt : t ≤ t') :
    ((non_max_suppression ov t' cands).length
      ≤ (non_max_suppression ov t cands).length) ∧
    (∀ res fl wa res' fl' wa',
      run_pipeline ov native flag0 cp cdp image_id image_size W H t cands
          = .ret res fl wa →
      run_pipeline ov native flag0 cp cdp image_id image_size W H t' cands
          = .ret res' fl' wa' →
      res'.detections.length ≤ res.detections.length) ∧
    ((∀ c ∈ cands, c.conf < 1) → sizeOk image_size = true →
      ∃ res : DetectionResult, ∃ fl wa : Bool,
        run_pipeline ov native flag0 cp cdp image_id image_size W H 1 cands
            = .ret res fl wa ∧
        res.detections.length = 0) := by
  obtain ⟨seg, hseg⟩ := nms_segment_of_sorted ov htt hsorted
  have stage : (non_max_suppression ov t' cands).length
      ≤ (non_max_suppression ov t cands).length := by
    rw [← hseg, List.length_append]
    omega
  refine ⟨stage, ?_, ?_⟩
  · intro res fl wa res' fl' wa' hret hret'
    rw [run_pipeline] at hret hret'
    obtain ⟨hnone, hres⟩ := generate_ok_ret_inv native flag0 cp cdp image_id image_size W H
      _ res fl wa hret
    obtain ⟨-, hres'⟩ := generate_ok_ret_inv native flag0 cp cdp image_id image_size W H
      _ res' fl' wa' hret'
    subst hres
    subst hres'
    have hok : ∀ r ∈ (non_max_suppression ov t cands).reverse,
        ∃ k, remapClass native r.cls = .ok k := loopError_none_inv hnone
    have hok' : ∀ r ∈ (non_max_suppression ov t' cands).reverse,
        ∃ k, remapClass native r.cls = .ok k := by
      intro r hr
      refine hok r (List.mem_reverse.mpr ?_)
      have h1 : r ∈ non_max_suppression ov t' cands := List.mem_reverse.mp hr
      rw [← hseg]
      exact List.mem_append_left _ h1
    simp only [loopDetections_length hok, loopDetections_length hok', List.length_reverse]
    exact stage
  · intro hconf hs
    have hnil : cands.filter (fun c : RawDet => (1 : ℚ) ≤ c.conf) = [] := by
      rw [List.filter_eq_nil_iff]
      intro a ha
      simp only [decide_eq_true_eq]
      exact not_le.mpr (hconf a ha)
    have hrows : non_max_suppression ov 1 cands = [] := by
      rw [non_max_suppression, hnil]
      simp [nmsGreedy]
    rw [run_pipeline, hrows]
    obtain ⟨fl, wa, hret⟩ := generate_ok_ret native flag0 cp cdp image_id image_size W H
      [] hs rfl
    exact ⟨_, fl, wa, hret, rfl⟩

/-- Witness for C7 at a concrete input: one sorted candidate below confidence
1 with a recognized class, thresholds 2/5 ≤ 3/5, and threshold 1. -/
theorem claim7_witness :
    ((non_max_suppression (fun _ _ => false) (3/5)
        [{ x1 := 0, y1 := 0, x2 := 100, y2 := 100, conf := 9/10, cls := 0 }]).length
      ≤ (non_max_suppression (fun _ _ => false) (2/5)
        [{ x1 := 0, y1 := 0, x2 := 100, y2 := 100, conf := 9/10, cls := 0 }]).length) ∧
    (∀ res fl wa res' fl' wa',
      run_pipeline (fun _ _ => false) false false 1 1 "img" none 100 100 (2/5)
          [{ x1 := 0, y1 := 0, x2 := 100, y2 := 100, conf := 9/10, cls := 0 }]
          = .ret res fl wa →
      run_pipeline (fun _ _ => false) false false 1 1 "img" none 100 100 (3/5)
          [{ x1 := 0, y1 := 0, x2 := 100, y2 := 100, conf := 9/10, cls := 0 }]
          = .ret res' fl' wa' →
      res'.detections.length ≤ res.detections.length) ∧
    (∃ res : DetectionResult, ∃ fl wa : Bool,
      run_pipeline (fun _ _ => false) false false 1 1 "img" none 100 100 1
          [{ x1 := 0, y1 := 0, x2 := 100, y2 := 100, conf := 9/10, cls := 0 }]
          = .ret res fl wa ∧
      res.detections.length = 0) := by
  have h := claim7_threshold (fun _ _ => false) false false 1 1 "img" none 100 100
    (2/5) (3/5)
    [{ x1 := 0, y1 := 0, x2 := 100, y2 := 100, conf := 9/10, cls := 0 }]
    (by simp) (by norm_num)
  exact ⟨h.1, h.2.1,
    h.2.2 (by
      intro c hc
      simp only [List.mem_singleton] at hc
      subst hc
      norm_num) rfl⟩

end PTDetector
